import Mathlib

/-!
Shallow embedding of the streaming hash engines of the `hashes` repository
(MD2, MD4, MD5, RIPEMD-160/320, Streebog-256/512, Whirlpool) together with
theorems settling the specification claims about them.

Machine integers are modelled as `Nat` with explicit reduction modulo
`2 ^ 32` / `2 ^ 64` at every operation where the Rust source wraps.
Byte strings are `List Nat` (each entry a byte value).  Compression
functions whose Rust source is not part of the excerpt (RIPEMD, Whirlpool,
the Streebog tables) are taken as explicit function parameters, following
the spec's block/state contract for them; functions that the spec pins
bit-exactly via published known-answer vectors (MD5 compression, the MD2
S-box) are modelled from the published algorithm specifications.
-/

/-- `2 ^ 32`, the modulus of the 32-bit words used by MD4/MD5/RIPEMD. -/
def M32 : Nat := 4294967296

/-- `2 ^ 64`, the modulus of 64-bit counters and words. -/
def M64 : Nat := 18446744073709551616

/-- All-ones 32-bit mask; xor with it is the `!` (bitwise not) of `u32`. -/
def mask32 : Nat := 4294967295

/-- Left rotation of a 32-bit word (the Rust `u32::rotate_left`). -/
def rotl32 (x s : Nat) : Nat :=
  (((x % M32) <<< s) % M32) ||| ((x % M32) >>> (32 - s))

/-- The `k` little-endian bytes of `x` (the Rust `to_le_bytes`). -/
def leBytes : Nat → Nat → List Nat
  | _, 0 => []
  | x, k + 1 => x % 256 :: leBytes (x / 256) k

/-- The `k` big-endian bytes of `x` (the Rust `to_be_bytes`). -/
def beBytes (x k : Nat) : List Nat := (leBytes x k).reverse

/-- The little-endian word formed by `k` bytes of `bl` starting at `off`
(the Rust `from_le_bytes` on a sub-slice). -/
def leWord (bl : List Nat) : Nat → Nat → Nat
  | _, 0 => 0
  | off, k + 1 => bl.getD off 0 + 256 * leWord bl (off + 1) k

/-- Modelled from the spec: the incremental block buffer's `digest_pad`
(the `BlockBuffer` type of the `digest` crate is not under `src/`).  Per
spec section 4.1 it appends a single `0x80` marker byte, zero-fills, and
reserves an extra zero-filled block whenever the suffix (the encoded
length field) does not fit at the very end of the current block; the
suffix always lands at the end of the last block.  Returns the list of
padded blocks handed to the compression callback, in order. -/
def digestPad (bs : Nat) (buf suffix : List Nat) : List (List Nat) :=
  if buf.length + 1 + suffix.length ≤ bs then
    [buf ++ 0x80 :: List.replicate (bs - 1 - suffix.length - buf.length) 0 ++ suffix]
  else
    [buf ++ 0x80 :: List.replicate (bs - 1 - buf.length) 0,
     List.replicate (bs - suffix.length) 0 ++ suffix]

/-- Modelled from the spec: the block buffer's `len64_padding_le` used by
MD4/MD5/RIPEMD — `digest_pad` with an 8-byte little-endian length field
on 64-byte blocks. -/
def len64PaddingLe (buf : List Nat) (lenField : List Nat) : List (List Nat) :=
  digestPad 64 buf lenField

/-- Modelled from the spec: the block buffer's `pad_with::<Pkcs7>` on
16-byte blocks — append `n` bytes all holding value `n` where `n` is the
number of bytes needed to reach block size (a full block of padding when
the buffer is empty). -/
def pkcs7Pad (bs : Nat) (buf : List Nat) : List Nat :=
  buf ++ List.replicate (bs - buf.length) (bs - buf.length)

/-- Modelled from the spec: the block buffer's `pad_with::<ZeroPadding>` —
zero-fill the remainder of the block. -/
def zeroPad (bs : Nat) (buf : List Nat) : List Nat :=
  buf ++ List.replicate (bs - buf.length) 0

/-- Modelled from the spec: one byte flowing into the incremental block
buffer; when the block becomes full it is handed to the engine's block
update operation and the fill position is cleared. -/
def consumeByte {σ : Type} (bs : Nat) (upd : σ → List Nat → σ)
    (p : σ × List Nat) (byte : Nat) : σ × List Nat :=
  let buf := p.2 ++ [byte]
  if buf.length = bs then (upd p.1 buf, []) else (p.1, buf)

/-- Modelled from the spec: the streaming driver's `update` — copy input
bytes into the buffer, compressing each block the moment it is complete,
until all input is consumed. -/
def consume {σ : Type} (bs : Nat) (upd : σ → List Nat → σ)
    (p : σ × List Nat) (input : List Nat) : σ × List Nat :=
  input.foldl (consumeByte bs upd) p

/-- A sequence of `update` calls, one per chunk. -/
def consumeChunks {σ : Type} (bs : Nat) (upd : σ → List Nat → σ)
    (p : σ × List Nat) (chunks : List (List Nat)) : σ × List Nat :=
  chunks.foldl (consume bs upd) p

/-! ## MD4 (`src/md4/src/lib.rs`) -/

/-- The MD4 core state: processed-block counter and four 32-bit state
words (`Md4Core { blocks: u64, s: [u32; 4] }`). -/
structure Md4Core where
  blocks : Nat
  s : List Nat
deriving DecidableEq

/-- The MD4 initial value `S` together with a zero block counter
(`Default for Md4Core`). -/
def md4Init : Md4Core := ⟨0, [0x67452301, 0xEFCDAB89, 0x98BADCFE, 0x10325476]⟩

/-- MD4 round function `f(x, y, z) = (x & y) | (!x & z)`. -/
def md4f (x y z : Nat) : Nat := (x &&& y) ||| ((x ^^^ mask32) &&& z)

/-- MD4 round function `g(x, y, z) = (x & y) | (x & z) | (y & z)`. -/
def md4g (x y z : Nat) : Nat := (x &&& y) ||| (x &&& z) ||| (y &&& z)

/-- MD4 round function `h(x, y, z) = x ^ y ^ z`. -/
def md4h (x y z : Nat) : Nat := x ^^^ y ^^^ z

/-- MD4 round-1 step `op1`. -/
def md4op1 (a b c d k s : Nat) : Nat := rotl32 ((a + md4f b c d + k) % M32) s

/-- MD4 round-2 step `op2` (additive constant `0x5A827999`). -/
def md4op2 (a b c d k s : Nat) : Nat :=
  rotl32 ((a + md4g b c d + k + 0x5A827999) % M32) s

/-- MD4 round-3 step `op3` (additive constant `0x6ED9EBA1`). -/
def md4op3 (a b c d k s : Nat) : Nat :=
  rotl32 ((a + md4h b c d + k + 0x6ED9EBA1) % M32) s

/-- One group of four round-1 steps of `Md4Core::compress`. -/
def md4Round1 (data : Nat → Nat) (st : Nat × Nat × Nat × Nat) (i : Nat) :
    Nat × Nat × Nat × Nat :=
  let a := md4op1 st.1 st.2.1 st.2.2.1 st.2.2.2 (data i) 3
  let d := md4op1 st.2.2.2 a st.2.1 st.2.2.1 (data (i + 1)) 7
  let c := md4op1 st.2.2.1 d a st.2.1 (data (i + 2)) 11
  let b := md4op1 st.2.1 c d a (data (i + 3)) 19
  (a, b, c, d)

/-- One group of four round-2 steps of `Md4Core::compress`. -/
def md4Round2 (data : Nat → Nat) (st : Nat × Nat × Nat × Nat) (i : Nat) :
    Nat × Nat × Nat × Nat :=
  let a := md4op2 st.1 st.2.1 st.2.2.1 st.2.2.2 (data i) 3
  let d := md4op2 st.2.2.2 a st.2.1 st.2.2.1 (data (i + 4)) 5
  let c := md4op2 st.2.2.1 d a st.2.1 (data (i + 8)) 9
  let b := md4op2 st.2.1 c d a (data (i + 12)) 13
  (a, b, c, d)

/-- One group of four round-3 steps of `Md4Core::compress`. -/
def md4Round3 (data : Nat → Nat) (st : Nat × Nat × Nat × Nat) (i : Nat) :
    Nat × Nat × Nat × Nat :=
  let a := md4op3 st.1 st.2.1 st.2.2.1 st.2.2.2 (data i) 3
  let d := md4op3 st.2.2.2 a st.2.1 st.2.2.1 (data (i + 8)) 9
  let c := md4op3 st.2.2.1 d a st.2.1 (data (i + 4)) 11
  let b := md4op3 st.2.1 c d a (data (i + 12)) 15
  (a, b, c, d)

/-- The state-word part of `Md4Core::compress`: three rounds over the
16-word little-endian-decoded block, then wrapping addition of the
result into the state words. -/
def md4CompressWords (s : List Nat) (input : List Nat) : List Nat :=
  let data := fun i => leWord input (4 * i) 4
  let st0 := (s.getD 0 0, s.getD 1 0, s.getD 2 0, s.getD 3 0)
  let st1 := [0, 4, 8, 12].foldl (md4Round1 data) st0
  let st2 := [0, 1, 2, 3].foldl (md4Round2 data) st1
  let st3 := [0, 2, 1, 3].foldl (md4Round3 data) st2
  [(s.getD 0 0 + st3.1) % M32, (s.getD 1 0 + st3.2.1) % M32,
   (s.getD 2 0 + st3.2.2.1) % M32, (s.getD 3 0 + st3.2.2.2) % M32]

/-- `Md4Core::compress`: mutates only the state words `s`. -/
def Md4Core.compress (core : Md4Core) (input : List Nat) : Md4Core :=
  { core with s := md4CompressWords core.s input }

/-- `Md4Core::update_blocks`: wrapping-add the number of blocks to the
counter (overflow mod `2 ^ 64` is intentional per the source comment),
then compress each block. -/
def Md4Core.updateBlocks (core : Md4Core) (bs : List (List Nat)) : Md4Core :=
  bs.foldl Md4Core.compress { core with blocks := (core.blocks + bs.length) % M64 }

/-- The MD4 bit-length expression `8 * (pos + bs * blocks)` of
`finalize_fixed_core`, under Rust release (wrapping) semantics: the inner
`u64` product and sum and the outer product each reduce mod `2 ^ 64`. -/
def md4BitLen (pos blocks : Nat) : Nat :=
  (8 * ((pos + (64 * blocks) % M64) % M64)) % M64

/-- The same MD4 bit-length expression under overflow-checked (debug)
semantics: `none` exactly when some intermediate `u64` operation
overflows, which is when Rust's checked build panics. -/
def md4BitLenChecked (pos blocks : Nat) : Option Nat :=
  if 64 * blocks < M64 then
    if pos + 64 * blocks < M64 then
      if 8 * (pos + 64 * blocks) < M64 then some (8 * (pos + 64 * blocks))
      else none
    else none
  else none

/-- `Md4Core::finalize_fixed_core`: length-pad (little-endian 64-bit bit
count), compress the padded block(s) into the core itself, and serialize
the state words little-endian.  Returns the mutated core and the
16-byte digest. -/
def Md4Core.finalizeFixedCore (core : Md4Core) (buf : List Nat) :
    Md4Core × List Nat :=
  let len := md4BitLen buf.length core.blocks
  let c2 := (len64PaddingLe buf (leBytes len 8)).foldl Md4Core.compress core
  (c2, (c2.s.map (fun v => leBytes v 4)).flatten)

/-- `Reset for Md4Core`: `*self = Default::default()`. -/
def md4Reset (_ : Md4Core) : Md4Core := md4Init

/-! ## MD2 (`src/md2/src/lib.rs`) -/

/-- The MD2 core state: 48-byte working array `x` and 16-byte running
checksum. -/
structure Md2Core where
  x : List Nat
  checksum : List Nat
deriving DecidableEq

/-- `Default for Md2Core`: all zero. -/
def md2Init : Md2Core := ⟨List.replicate 48 0, List.replicate 16 0⟩

/-- Modelled from the spec: the MD2 S-box (`src/md2/src/consts.rs` is not
under `src/`); the values are the published MD2 substitution table, which
the spec pins through the MD2 empty-string known-answer vector. -/
def md2S : List Nat :=
  [41, 46, 67, 201, 162, 216, 124, 1, 61, 54, 84, 161, 236, 240, 6, 19,
   98, 167, 5, 243, 192, 199, 115, 140, 152, 147, 43, 217, 188, 76, 130, 202,
   30, 155, 87, 60, 253, 212, 224, 22, 103, 66, 111, 24, 138, 23, 229, 18,
   190, 78, 196, 214, 218, 158, 222, 73, 160, 251, 245, 142, 187, 47, 238, 122,
   169, 104, 121, 145, 21, 178, 7, 63, 148, 194, 16, 137, 11, 34, 95, 33,
   128, 127, 93, 154, 90, 144, 50, 39, 53, 62, 204, 231, 191, 247, 151, 3,
   255, 25, 48, 179, 72, 165, 181, 209, 215, 94, 146, 42, 172, 86, 170, 198,
   79, 184, 56, 210, 150, 164, 125, 182, 118, 252, 107, 226, 156, 116, 4, 241,
   69, 157, 112, 89, 100, 113, 135, 32, 134, 91, 207, 101, 230, 45, 168, 2,
   27, 96, 37, 173, 174, 176, 185, 246, 28, 70, 97, 105, 52, 64, 126, 15,
   85, 71, 163, 35, 221, 81, 175, 58, 195, 92, 249, 206, 186, 197, 234, 38,
   44, 83, 13, 110, 133, 40, 132, 9, 211, 223, 205, 244, 65, 129, 77, 82,
   106, 220, 55, 200, 108, 193, 171, 250, 36, 225, 123, 8, 12, 189, 177, 74,
   120, 136, 149, 139, 227, 99, 232, 109, 233, 203, 213, 254, 59, 0, 29, 57,
   242, 239, 183, 14, 102, 88, 208, 228, 166, 119, 114, 248, 235, 117, 75, 10,
   49, 68, 80, 180, 143, 237, 31, 26, 219, 153, 141, 51, 159, 17, 131, 20]

/-- Lookup in the MD2 S-box (indices are `u8` values). -/
def md2SAt (i : Nat) : Nat := md2S.getD (i % 256) 0

/-- The inner loop of one MD2 diffusion round, elementwise over the
48-byte array: `x[k] ^= S[t]; t = x[k]` for each position in order,
returning the new array and the final `t`. -/
def md2RoundList : List Nat → Nat → List Nat × Nat
  | [], t => ([], t)
  | a :: rest, t =>
    let v := a ^^^ md2SAt t
    let r := md2RoundList rest v
    (v :: r.1, r.2)

/-- One of the 18 MD2 rounds: the 48 inner steps followed by
`t = t.wrapping_add(j)`. -/
def md2Round (p : List Nat × Nat) (j : Nat) : List Nat × Nat :=
  let q := md2RoundList p.1 p.2
  (q.1, (q.2 + j) % 256)

/-- The MD2 checksum update, elementwise over the 16 checksum bytes and
the 16 input bytes: `checksum[j] ^= S[input[j] ^ l]; l = checksum[j]`. -/
def md2ChecksumList : List Nat → List Nat → Nat → List Nat
  | [], _, _ => []
  | c :: cs, [], l =>
    let v := c ^^^ md2SAt l
    v :: md2ChecksumList cs [] v
  | c :: cs, i :: is, l =>
    let v := c ^^^ md2SAt ((i % 256) ^^^ l)
    v :: md2ChecksumList cs is v

/-- `Md2Core::compress`: load block into `x[16..48]`, 18 S-box diffusion
rounds over the 48-byte array, then the byte-wise checksum update carrying
the previous output byte as the next lookup's seed. -/
def Md2Core.compress (core : Md2Core) (input : List Nat) : Md2Core :=
  let inp := (List.range 16).map (fun j => input.getD j 0 % 256)
  let x0 := core.x.take 16 ++ inp ++
    (List.range 16).map (fun j => inp.getD j 0 ^^^ core.x.getD j 0)
  let xr := (List.range 18).foldl md2Round (x0, 0)
  let cs := md2ChecksumList core.checksum inp (core.checksum.getD 15 0)
  ⟨xr.1, cs⟩

/-- `UpdateCore for Md2Core`: compress each block; no counter. -/
def Md2Core.updateBlocks (core : Md2Core) (bs : List (List Nat)) : Md2Core :=
  bs.foldl Md2Core.compress core

/-- `Md2Core::finalize_fixed_core`: PKCS-pad the buffer, compress it
(updating the checksum), compress once more with the running checksum as
the input block, and emit `x[0..16]`. -/
def Md2Core.finalizeFixedCore (core : Md2Core) (buf : List Nat) :
    Md2Core × List Nat :=
  let c1 := core.compress (pkcs7Pad 16 buf)
  let c2 := c1.compress c1.checksum
  (c2, c2.x.take 16)

/-- `Reset for Md2Core`. -/
def md2Reset (_ : Md2Core) : Md2Core := md2Init

/-- The MD2 finalization exactly as the claim words it: pad the final
block with `n` bytes each holding value `n` (`n = 16 - fill position`),
compress that padded block, perform one extra compress pass taking the
running checksum as it stands after the padded-block compress as the
input block, and return the first 16 bytes of the 48-byte working array
`x` (not the checksum). -/
def md2FinalizeClaim (core : Md2Core) (buf : List Nat) : Md2Core × List Nat :=
  let n := 16 - buf.length
  let c1 := core.compress (buf ++ List.replicate n n)
  let c2 := c1.compress c1.checksum
  (c2, c2.x.take 16)

/-! ## MD5 (`src/md5/src/lib.rs`) -/

/-- The MD5 core state: processed-block counter and four 32-bit state
words (`Md5Core { block_len: u64, state: [u32; 4] }`). -/
structure Md5Core where
  block_len : Nat
  state : List Nat
deriving DecidableEq

/-- Modelled from the spec: the MD5 initial value `consts::S0`
(`src/md5/src/consts.rs` is not under `src/`); the published MD5
initialization vector, pinned by the spec's MD5 empty-string
known-answer vector. -/
def md5Init : Md5Core := ⟨0, [0x67452301, 0xEFCDAB89, 0x98BADCFE, 0x10325476]⟩

/-- Modelled from the spec: the MD5 per-step additive constant table of
the published MD5 specification (`src/md5/src/utils.rs` is not under
`src/`). -/
def md5K : List Nat :=
  [0xd76aa478, 0xe8c7b756, 0x242070db, 0xc1bdceee,
   0xf57c0faf, 0x4787c62a, 0xa8304613, 0xfd469501,
   0x698098d8, 0x8b44f7af, 0xffff5bb1, 0x895cd7be,
   0x6b901122, 0xfd987193, 0xa679438e, 0x49b40821,
   0xf61e2562, 0xc040b340, 0x265e5a51, 0xe9b6c7aa,
   0xd62f105d, 0x02441453, 0xd8a1e681, 0xe7d3fbc8,
   0x21e1cde6, 0xc33707d6, 0xf4d50d87, 0x455a14ed,
   0xa9e3e905, 0xfcefa3f8, 0x676f02d9, 0x8d2a4c8a,
   0xfffa3942, 0x8771f681, 0x6d9d6122, 0xfde5380c,
   0xa4beea44, 0x4bdecfa9, 0xf6bb4b60, 0xbebfbc70,
   0x289b7ec6, 0xeaa127fa, 0xd4ef3085, 0x04881d05,
   0xd9d4d039, 0xe6db99e5, 0x1fa27cf8, 0xc4ac5665,
   0xf4292244, 0x432aff97, 0xab9423a7, 0xfc93a039,
   0x655b59c3, 0x8f0ccc92, 0xffeff47d, 0x85845dd1,
   0x6fa87e4f, 0xfe2ce6e0, 0xa3014314, 0x4e0811a1,
   0xf7537e82, 0xbd3af235, 0x2ad7d2bb, 0xeb86d391]

/-- Modelled from the spec: the MD5 per-step left-rotation amounts of the
published MD5 specification. -/
def md5Shifts : List Nat :=
  [7, 12, 17, 22, 7, 12, 17, 22, 7, 12, 17, 22, 7, 12, 17, 22,
   5, 9, 14, 20, 5, 9, 14, 20, 5, 9, 14, 20, 5, 9, 14, 20,
   4, 11, 16, 23, 4, 11, 16, 23, 4, 11, 16, 23, 4, 11, 16, 23,
   6, 10, 15, 21, 6, 10, 15, 21, 6, 10, 15, 21, 6, 10, 15, 21]

/-- The MD5 nonlinear function of step `i` applied to `b`, `c`, `d`. -/
def md5Fun (i b c d : Nat) : Nat :=
  if i < 16 then (b &&& c) ||| ((b ^^^ mask32) &&& d)
  else if i < 32 then (d &&& b) ||| ((d ^^^ mask32) &&& c)
  else if i < 48 then b ^^^ c ^^^ d
  else c ^^^ (b ||| (d ^^^ mask32))

/-- The MD5 message-word index of step `i`. -/
def md5Idx (i : Nat) : Nat :=
  if i < 16 then i
  else if i < 32 then (5 * i + 1) % 16
  else if i < 48 then (3 * i + 5) % 16
  else (7 * i) % 16

/-- One MD5 step: rotate the accumulator chain
`(a, b, c, d) := (d, b + rotl(a + fun + K + M, s), b, c)`. -/
def md5Step (data : Nat → Nat) (st : Nat × Nat × Nat × Nat) (i : Nat) :
    Nat × Nat × Nat × Nat :=
  let t := (st.1 + md5Fun i st.2.1 st.2.2.1 st.2.2.2 + md5K.getD i 0 +
    data (md5Idx i)) % M32
  (st.2.2.2, (st.2.1 + rotl32 t (md5Shifts.getD i 0)) % M32, st.2.1, st.2.2.1)

/-- Modelled from the spec: the MD5 compression function
(`src/md5/src/utils.rs` is not under `src/`), the classical four-round
transform of the published MD5 specification over a 16-word
little-endian-decoded block, pinned bit-exactly by the spec's MD5
empty-string known-answer vector. -/
def md5Compress (s : List Nat) (input : List Nat) : List Nat :=
  let data := fun i => leWord input (4 * i) 4
  let st0 := (s.getD 0 0, s.getD 1 0, s.getD 2 0, s.getD 3 0)
  let st := (List.range 64).foldl (md5Step data) st0
  [(s.getD 0 0 + st.1) % M32, (s.getD 1 0 + st.2.1) % M32,
   (s.getD 2 0 + st.2.2.1) % M32, (s.getD 3 0 + st.2.2.2) % M32]

/-- `UpdateCore for Md5Core`: wrapping-add the block count, then
compress each block. -/
def Md5Core.updateBlocks (core : Md5Core) (bs : List (List Nat)) : Md5Core :=
  ⟨(core.block_len + bs.length) % M64, bs.foldl md5Compress core.state⟩

/-- The MD5 bit-length expression
`block_len.wrapping_mul(64).wrapping_add(pos).wrapping_mul(8)` of
`Md5Core::finalize_fixed_core` — every operation explicitly wrapping. -/
def md5BitLen (blockLen pos : Nat) : Nat :=
  ((((blockLen * 64) % M64) + pos) % M64 * 8) % M64

/-- `Md5Core::finalize_fixed_core`: compute the wrapped bit length, run
the padding compressions on a local copy `s` of the state words, and
serialize that copy little-endian.  The core itself is returned
untouched. -/
def Md5Core.finalizeFixedCore (core : Md5Core) (buf : List Nat) :
    Md5Core × List Nat :=
  let bitLen := md5BitLen core.block_len buf.length
  let s := (len64PaddingLe buf (leBytes bitLen 8)).foldl md5Compress core.state
  (core, (s.map (fun v => leBytes v 4)).flatten)

/-- `Reset for Md5Core`. -/
def md5Reset (_ : Md5Core) : Md5Core := md5Init

/-! ## RIPEMD-160 (`src/ripemd160/src/lib.rs`)

The compression function lives in `src/ripemd160/src/block.rs`, which is
not under `src/`; per the spec it is treated purely through its
block/state contract, so every definition takes it as an explicit
function parameter `cmp`. -/

/-- The RIPEMD-160 core state: five 32-bit words and a processed-block
counter. -/
structure Ripemd160Core where
  h : List Nat
  block_len : Nat
deriving DecidableEq

/-- Modelled from the spec: the RIPEMD-160 initial value `H0`
(`src/ripemd160/src/block.rs` is not under `src/`); the published
RIPEMD-160 initialization vector. -/
def ripemd160Init : Ripemd160Core :=
  ⟨[0x67452301, 0xefcdab89, 0x98badcfe, 0x10325476, 0xc3d2e1f0], 0⟩

/-- `UpdateCore for Ripemd160Core`: `block_len += blocks.len()` (an
unchecked addition, wrapping in release builds) then compress each
block. -/
def Ripemd160Core.updateBlocks (cmp : List Nat → List Nat → List Nat)
    (core : Ripemd160Core) (bs : List (List Nat)) : Ripemd160Core :=
  ⟨bs.foldl cmp core.h, (core.block_len + bs.length) % M64⟩

/-- `Ripemd160Core::finalize_fixed_core`: compute the bit length
`8 * (pos + 64 * block_len)` (unchecked arithmetic, wrapping in release
builds), run the padding compressions on a local copy `h`, and serialize
it little-endian.  The core itself is returned untouched. -/
def Ripemd160Core.finalizeFixedCore (cmp : List Nat → List Nat → List Nat)
    (core : Ripemd160Core) (buf : List Nat) : Ripemd160Core × List Nat :=
  let bitLen := md4BitLen buf.length core.block_len
  let h := (len64PaddingLe buf (leBytes bitLen 8)).foldl cmp core.h
  (core, ((h.take 5).map (fun v => leBytes v 4)).flatten)

/-- The overflow-checked (debug) semantics of the unchecked `u64`
addition `block_len += blocks.len()` used by RIPEMD-160/320:
`none` is the case in which Rust's checked build panics. -/
def checkedAdd64 (a b : Nat) : Option Nat :=
  if a + b < M64 then some (a + b) else none

/-! ## RIPEMD-320 (`src/ripemd320/src/lib.rs`) -/

/-- The RIPEMD-320 core state: ten 32-bit words and a processed-block
counter. -/
structure Ripemd320Core where
  h : List Nat
  block_len : Nat
deriving DecidableEq

/-- Modelled from the spec: the RIPEMD-320 initial value `H0`
(`src/ripemd320/src/block.rs` is not under `src/`); the published
RIPEMD-320 initialization vector. -/
def ripemd320Init : Ripemd320Core :=
  ⟨[0x67452301, 0xefcdab89, 0x98badcfe, 0x10325476, 0xc3d2e1f0,
    0x76543210, 0xfedcba98, 0x89abcdef, 0x01234567, 0x3c2d1e0f], 0⟩

/-- `UpdateCore for Ripemd320Core`, as for RIPEMD-160. -/
def Ripemd320Core.updateBlocks (cmp : List Nat → List Nat → List Nat)
    (core : Ripemd320Core) (bs : List (List Nat)) : Ripemd320Core :=
  ⟨bs.foldl cmp core.h, (core.block_len + bs.length) % M64⟩

/-- `Ripemd320Core::finalize_fixed_core`, as for RIPEMD-160 but emitting
all ten words (40 bytes). -/
def Ripemd320Core.finalizeFixedCore (cmp : List Nat → List Nat → List Nat)
    (core : Ripemd320Core) (buf : List Nat) : Ripemd320Core × List Nat :=
  let bitLen := md4BitLen buf.length core.block_len
  let h := (len64PaddingLe buf (leBytes bitLen 8)).foldl cmp core.h
  (core, ((h.take 10).map (fun v => leBytes v 4)).flatten)

/-- `Reset for Ripemd320Core`.  (RIPEMD-160 has no reset in the source:
`src/ripemd160/src/lib.rs` implements only `Default`, not `Reset`.) -/
def ripemd320Reset (_ : Ripemd320Core) : Ripemd320Core := ripemd320Init

/-! ## Whirlpool (`src/whirlpool/src/lib.rs`)

The compression function lives in `src/whirlpool/src/compress.rs`, which
is not under `src/`; it is taken as an explicit function parameter on the
8-word state, per the spec's block/state contract. -/

/-- The Whirlpool core state: a 256-bit bit-length counter as four
64-bit limbs (`bit_len`, least-significant limb at index 3) and eight
64-bit state words. -/
structure WhirlpoolCore where
  bit_len : List Nat
  state : List Nat
deriving DecidableEq

/-- `Default for WhirlpoolCore`: all zero. -/
def whirlpoolInit : WhirlpoolCore := ⟨[0, 0, 0, 0], List.replicate 8 0⟩

/-- `WhirlpoolCore::update_len`: add `len` into limb 3 and propagate the
carry through limbs 2, 1, 0 (the `adc` chain), i.e. addition of the
four-limb counter mod `2 ^ 256`. -/
def whirlpoolUpdateLen (l : List Nat) (len : Nat) : List Nat :=
  let a3 := l.getD 3 0 + len
  let a2 := l.getD 2 0 + a3 / M64
  let a1 := l.getD 1 0 + a2 / M64
  let a0 := l.getD 0 0 + a1 / M64
  [a0 % M64, a1 % M64, a2 % M64, a3 % M64]

/-- The value of the four-limb counter (limb 3 least significant). -/
def whirlpoolLenVal (l : List Nat) : Nat :=
  l.getD 3 0 + M64 * (l.getD 2 0 + M64 * (l.getD 1 0 + M64 * l.getD 0 0))

/-- `UpdateCore for WhirlpoolCore`: `update_len(512 * blocks.len())`
(the `u64` product wraps) then compress each block. -/
def WhirlpoolCore.updateBlocks (cmp : List Nat → List Nat → List Nat)
    (core : WhirlpoolCore) (bs : List (List Nat)) : WhirlpoolCore :=
  ⟨whirlpoolUpdateLen core.bit_len ((512 * bs.length) % M64),
   bs.foldl cmp core.state⟩

/-- `WhirlpoolCore::finalize_fixed_core`: add `8 * pos` to the counter,
serialize it as four big-endian 64-bit limbs, feed the `digest_pad`
blocks ending in that 32-byte suffix to the compression on a local copy
of the state, and emit the copy big-endian.  The stored `bit_len` is
mutated; the stored state words are not. -/
def WhirlpoolCore.finalizeFixedCore (cmp : List Nat → List Nat → List Nat)
    (core : WhirlpoolCore) (buf : List Nat) : WhirlpoolCore × List Nat :=
  let bl2 := whirlpoolUpdateLen core.bit_len (8 * buf.length)
  let suffix := (bl2.map (fun v => beBytes v 8)).flatten
  let st := (digestPad 64 buf suffix).foldl cmp core.state
  (⟨bl2, core.state⟩, (st.map (fun v => beBytes v 8)).flatten)

/-- `Reset for WhirlpoolCore`. -/
def whirlpoolReset (_ : WhirlpoolCore) : WhirlpoolCore := whirlpoolInit

/-- The Whirlpool finalization exactly as the claim words it: the
counter (plus `8 ×` buffered position, carry-propagated) is serialized
as four big-endian 64-bit words into a 32-byte suffix appended after the
`0x80` marker and zero fill — reserving an extra block when it does not
fit — before the final compress. -/
def whirlpoolFinalizeClaim (cmp : List Nat → List Nat → List Nat)
    (core : WhirlpoolCore) (buf : List Nat) : WhirlpoolCore × List Nat :=
  let bl2 := whirlpoolUpdateLen core.bit_len (8 * buf.length)
  let suffix := (bl2.map (fun v => beBytes v 8)).flatten
  let blocks :=
    if buf.length + 33 ≤ 64 then
      [buf ++ 0x80 :: List.replicate (64 - 33 - buf.length) 0 ++ suffix]
    else
      [buf ++ 0x80 :: List.replicate (63 - buf.length) 0,
       List.replicate 32 0 ++ suffix]
  let st := (blocks.foldl cmp core.state)
  (⟨bl2, core.state⟩, (st.map (fun v => beBytes v 8)).flatten)

/-! ## Streebog (`src/streebog/src/streebog.rs`)

`src/streebog/src/table.rs` (the shuffled linear table) and
`src/streebog/src/consts.rs` (the round constants `C`) are not under
`src/`; per the spec they are immutable constant data, so every
definition takes them as explicit parameters `TBL` and `CST`. -/

/-- The Streebog state: 64-byte hash accumulator `h`, 256-bit message
length counter `n` as eight 32-bit limbs, 64-byte running sum `sigma`. -/
structure StreebogState where
  h : List Nat
  n : List Nat
  sigma : List Nat
deriving DecidableEq

/-- The `lps` transform: xor the 64-byte state with the input block,
then the byte-sliced table-lookup diffusion producing eight 64-bit
accumulator words reassembled little-endian. -/
def streebogLps (TBL : Nat → Nat → Nat) (h n : List Nat) : List Nat :=
  let hx := (List.range 64).map (fun i => h.getD i 0 ^^^ n.getD i 0)
  let bufw := fun w =>
    (List.range 8).foldl (fun acc j => acc ^^^ TBL j (hx.getD (w + 8 * j) 0)) 0
  ((List.range 8).map (fun w => leBytes (bufw w) 8)).flatten

/-- One of the 12 rounds of `g`: `lps` on the message block keyed by the
evolving key, and `lps` on the key with the round constant. -/
def streebogRound (TBL : Nat → Nat → Nat) (CST : Nat → List Nat)
    (p : List Nat × List Nat) (i : Nat) : List Nat × List Nat :=
  (streebogLps TBL p.1 p.2, streebogLps TBL p.2 (CST i))

/-- `StreebogState::g(n, m)`: derive the round key from `h ⊕ n` by
`lps`, run 12 rounds, and xor the transformed block, transformed key and
original message block into the hash accumulator. -/
def streebogG (TBL : Nat → Nat → Nat) (CST : Nat → List Nat)
    (h n m : List Nat) : List Nat :=
  let key0 := streebogLps TBL h n
  let p := (List.range 12).foldl (streebogRound TBL CST) (m, key0)
  (List.range 64).map
    (fun i => h.getD i 0 ^^^ p.1.getD i 0 ^^^ p.2.getD i 0 ^^^ m.getD i 0)

/-- `StreebogState::update_sigma`: byte-wise carry-chained (little-endian)
addition of the message block into the running 64-byte sum. -/
def streebogUpdateSigma (sigma m : List Nat) : List Nat :=
  ((List.range 64).foldl (fun (acc : List Nat × Nat) i =>
    let cr := sigma.getD i 0 + m.getD i 0 + acc.2 / 256
    (acc.1 ++ [cr % 256], cr)) ([], 0)).1

/-- `StreebogState::update_n`: add `8 * len` into the least-significant
32-bit limb `n[0]` and propagate the carry through the eight limbs (the
`adc` chain). -/
def streebogUpdateN (n : List Nat) (len : Nat) : List Nat :=
  ((List.range 8).foldl (fun (acc : List Nat × Nat) i =>
    let add := if i = 0 then 8 * len else 0
    let v := n.getD i 0 + add + acc.2
    (acc.1 ++ [v % M32], v / M32)) ([], 0)).1

/-- `StreebogState::get_n_bytes`: the counter serialized as eight
little-endian 32-bit limbs. -/
def streebogNBytes (n : List Nat) : List Nat :=
  (n.map (fun v => leBytes v 4)).flatten

/-- `StreebogState::compress(block, msg_len)`: `g` with the current
serialized counter, then `update_n(msg_len)` and `update_sigma(block)`. -/
def StreebogState.compress (TBL : Nat → Nat → Nat) (CST : Nat → List Nat)
    (st : StreebogState) (block : List Nat) (msgLen : Nat) : StreebogState :=
  ⟨streebogG TBL CST st.h (streebogNBytes st.n) block,
   streebogUpdateN st.n msgLen,
   streebogUpdateSigma st.sigma block⟩

/-- `StreebogState::update_blocks`: compress each block with
`msg_len = BLOCK_SIZE = 64`. -/
def StreebogState.updateBlocks (TBL : Nat → Nat → Nat) (CST : Nat → List Nat)
    (st : StreebogState) (bs : List (List Nat)) : StreebogState :=
  bs.foldl (fun s b => StreebogState.compress TBL CST s b 64) st

/-- `StreebogState::finalize`: zero-pad the buffer, set byte `pos` to 1,
compress with the exact byte count `pos` as length parameter, then two
more `g` passes with a zero `n` block: over the serialized counter and
over the running sum. -/
def StreebogState.finalize (TBL : Nat → Nat → Nat) (CST : Nat → List Nat)
    (st : StreebogState) (buf : List Nat) : StreebogState :=
  let pos := buf.length
  let block := (zeroPad 64 buf).set pos 1
  let st1 := StreebogState.compress TBL CST st block pos
  let st2 := { st1 with
    h := streebogG TBL CST st1.h (List.replicate 64 0) (streebogNBytes st1.n) }
  { st2 with
    h := streebogG TBL CST st2.h (List.replicate 64 0) st2.sigma }

/-- The Streebog finalization exactly as the claim words it: zero-fill
the remainder, set the single marker bit immediately after the last real
byte (the block becomes `buf ++ [1] ++ zeros`), compress it passing the
exact count of valid data bytes as the explicit length parameter, then
exactly two additional passes of the keyed permutation with a zero
length block: one over the serialized 256-bit message-length counter and
one over the running byte-wise sum. -/
def streebogFinalizeClaim (TBL : Nat → Nat → Nat) (CST : Nat → List Nat)
    (st : StreebogState) (buf : List Nat) : StreebogState :=
  let block := buf ++ 1 :: List.replicate (63 - buf.length) 0
  let st1 := StreebogState.compress TBL CST st block buf.length
  let st2 := { st1 with
    h := streebogG TBL CST st1.h (List.replicate 64 0) (streebogNBytes st1.n) }
  { st2 with
    h := streebogG TBL CST st2.h (List.replicate 64 0) st2.sigma }

/-- `Default for Streebog256Core`: `h` all `1` bytes, zero counters. -/
def streebog256Init : StreebogState :=
  ⟨List.replicate 64 1, List.replicate 8 0, List.replicate 64 0⟩

/-- `Default for Streebog512Core`: all zero. -/
def streebog512Init : StreebogState :=
  ⟨List.replicate 64 0, List.replicate 8 0, List.replicate 64 0⟩

/-- `Streebog256Core::finalize_fixed_core`: run the shared finalization
and copy `h[32..]` — the upper-indexed half of the byte accumulator —
into the 32-byte output. -/
def streebog256FinalizeFixedCore (TBL : Nat → Nat → Nat)
    (CST : Nat → List Nat) (st : StreebogState) (buf : List Nat) :
    StreebogState × List Nat :=
  let st2 := StreebogState.finalize TBL CST st buf
  (st2, st2.h.drop 32)

/-- `Streebog512Core::finalize_fixed_core`: run the shared finalization
and copy all of `h` into the 64-byte output. -/
def streebog512FinalizeFixedCore (TBL : Nat → Nat → Nat)
    (CST : Nat → List Nat) (st : StreebogState) (buf : List Nat) :
    StreebogState × List Nat :=
  let st2 := StreebogState.finalize TBL CST st buf
  (st2, st2.h)

/-- `Reset for Streebog256Core`. -/
def streebog256Reset (_ : StreebogState) : StreebogState := streebog256Init

/-- `Reset for Streebog512Core`. -/
def streebog512Reset (_ : StreebogState) : StreebogState := streebog512Init

/-! ## Streaming drivers

Each driver wires a core to the modelled block buffer: `update` feeds
bytes through `consume` (where every completed block goes to the core's
`update_blocks`), and the digest is read off by the core's
`finalize_fixed_core` on the remaining buffered bytes. -/

/-- MD4 digest after a sequence of `update` calls from a fresh hasher. -/
def md4DigestChunks (chunks : List (List Nat)) : List Nat :=
  let p := consumeChunks 64 (fun c blk => Md4Core.updateBlocks c [blk])
    (md4Init, []) chunks
  (Md4Core.finalizeFixedCore p.1 p.2).2

/-- MD5 digest after a sequence of `update` calls from a fresh hasher. -/
def md5DigestChunks (chunks : List (List Nat)) : List Nat :=
  let p := consumeChunks 64 (fun c blk => Md5Core.updateBlocks c [blk])
    (md5Init, []) chunks
  (Md5Core.finalizeFixedCore p.1 p.2).2

/-- MD2 digest after a sequence of `update` calls from a fresh hasher. -/
def md2DigestChunks (chunks : List (List Nat)) : List Nat :=
  let p := consumeChunks 16 (fun c blk => Md2Core.updateBlocks c [blk])
    (md2Init, []) chunks
  (Md2Core.finalizeFixedCore p.1 p.2).2

/-- RIPEMD-160 digest after a sequence of `update` calls. -/
def ripemd160DigestChunks (cmp : List Nat → List Nat → List Nat)
    (chunks : List (List Nat)) : List Nat :=
  let p := consumeChunks 64 (fun c blk => Ripemd160Core.updateBlocks cmp c [blk])
    (ripemd160Init, []) chunks
  (Ripemd160Core.finalizeFixedCore cmp p.1 p.2).2

/-- RIPEMD-320 digest after a sequence of `update` calls. -/
def ripemd320DigestChunks (cmp : List Nat → List Nat → List Nat)
    (chunks : List (List Nat)) : List Nat :=
  let p := consumeChunks 64 (fun c blk => Ripemd320Core.updateBlocks cmp c [blk])
    (ripemd320Init, []) chunks
  (Ripemd320Core.finalizeFixedCore cmp p.1 p.2).2

/-- Whirlpool digest after a sequence of `update` calls. -/
def whirlpoolDigestChunks (cmp : List Nat → List Nat → List Nat)
    (chunks : List (List Nat)) : List Nat :=
  let p := consumeChunks 64 (fun c blk => WhirlpoolCore.updateBlocks cmp c [blk])
    (whirlpoolInit, []) chunks
  (WhirlpoolCore.finalizeFixedCore cmp p.1 p.2).2

/-- Streebog-256 digest after a sequence of `update` calls. -/
def streebog256DigestChunks (TBL : Nat → Nat → Nat) (CST : Nat → List Nat)
    (chunks : List (List Nat)) : List Nat :=
  let p := consumeChunks 64 (fun c blk => StreebogState.updateBlocks TBL CST c [blk])
    (streebog256Init, []) chunks
  (streebog256FinalizeFixedCore TBL CST p.1 p.2).2

/-- Streebog-512 digest after a sequence of `update` calls. -/
def streebog512DigestChunks (TBL : Nat → Nat → Nat) (CST : Nat → List Nat)
    (chunks : List (List Nat)) : List Nat :=
  let p := consumeChunks 64 (fun c blk => StreebogState.updateBlocks TBL CST c [blk])
    (streebog512Init, []) chunks
  (streebog512FinalizeFixedCore TBL CST p.1 p.2).2

/-! ## Concrete instances used to evaluate the parameterized engines -/

/-- A concrete compression-function instance (identity on the state),
used to evaluate counter behaviour, which is independent of the
compression function. -/
def cmpId : List Nat → List Nat → List Nat := fun h _ => h

/-- A 64-byte zero block. -/
def zeroBlock64 : List Nat := List.replicate 64 0

/-- A concrete instance of the Streebog shuffled linear table (all
zero); the structural claims settled with it do not depend on the table
values. -/
def tbl0 : Nat → Nat → Nat := fun _ _ => 0

/-- A concrete instance of the Streebog round-constant array (all
zero). -/
def cst0 : Nat → List Nat := fun _ => List.replicate 64 0

/-- `n` successive RIPEMD-160 `update_blocks` calls of one zero block
each, from the initial state: reaches every block-counter value below
`2 ^ 64`. -/
def ripemd160FeedN : Nat → Ripemd160Core
  | 0 => ripemd160Init
  | n + 1 => Ripemd160Core.updateBlocks cmpId (ripemd160FeedN n) [zeroBlock64]

/-! ## Helper lemmas -/

theorem consume_append {σ : Type} (bs : Nat) (upd : σ → List Nat → σ)
    (p : σ × List Nat) (a b : List Nat) :
    consume bs upd p (a ++ b) = consume bs upd (consume bs upd p a) b := by
  simp [consume, List.foldl_append]

theorem consumeChunks_eq_flatten {σ : Type} (bs : Nat) (upd : σ → List Nat → σ)
    (p : σ × List Nat) (chunks : List (List Nat)) :
    consumeChunks bs upd p chunks = consume bs upd p chunks.flatten := by
  induction chunks generalizing p with
  | nil => rfl
  | cons c cs ih =>
    show consumeChunks bs upd (consume bs upd p c) cs = _
    rw [ih, ← consume_append]
    rfl

theorem consumeChunks_single {σ : Type} (bs : Nat) (upd : σ → List Nat → σ)
    (p : σ × List Nat) (l : List Nat) :
    consumeChunks bs upd p [l] = consume bs upd p l := rfl

theorem wrap64_add (a l1 l2 : Nat) :
    ((a + l1) % M64 + l2) % M64 = (a + (l1 + l2)) % M64 := by
  simp only [M64]
  omega

theorem md4_foldl_compress (bs : List (List Nat)) (c : Md4Core) :
    bs.foldl Md4Core.compress c = ⟨c.blocks, bs.foldl md4CompressWords c.s⟩ := by
  induction bs generalizing c with
  | nil => rfl
  | cons b t ih =>
    show List.foldl _ (c.compress b) t = _
    rw [ih]
    rfl

theorem md4_updateBlocks_eq (c : Md4Core) (bs : List (List Nat)) :
    Md4Core.updateBlocks c bs =
      ⟨(c.blocks + bs.length) % M64, bs.foldl md4CompressWords c.s⟩ := by
  unfold Md4Core.updateBlocks
  rw [md4_foldl_compress]

theorem md4_concat (c : Md4Core) (b1 b2 : List (List Nat)) :
    Md4Core.updateBlocks (Md4Core.updateBlocks c b1) b2 =
      Md4Core.updateBlocks c (b1 ++ b2) := by
  rw [md4_updateBlocks_eq, md4_updateBlocks_eq, md4_updateBlocks_eq]
  simp [Md4Core.mk.injEq, List.foldl_append, wrap64_add, Nat.add_assoc]

theorem md5_concat (c : Md5Core) (b1 b2 : List (List Nat)) :
    Md5Core.updateBlocks (Md5Core.updateBlocks c b1) b2 =
      Md5Core.updateBlocks c (b1 ++ b2) := by
  simp [Md5Core.updateBlocks, Md5Core.mk.injEq, List.foldl_append, wrap64_add,
    Nat.add_assoc]

theorem md2_concat (c : Md2Core) (b1 b2 : List (List Nat)) :
    Md2Core.updateBlocks (Md2Core.updateBlocks c b1) b2 =
      Md2Core.updateBlocks c (b1 ++ b2) := by
  simp [Md2Core.updateBlocks, List.foldl_append]

theorem ripemd160_concat (cmp : List Nat → List Nat → List Nat)
    (c : Ripemd160Core) (b1 b2 : List (List Nat)) :
    Ripemd160Core.updateBlocks cmp (Ripemd160Core.updateBlocks cmp c b1) b2 =
      Ripemd160Core.updateBlocks cmp c (b1 ++ b2) := by
  simp [Ripemd160Core.updateBlocks, Ripemd160Core.mk.injEq,
    List.foldl_append, wrap64_add, Nat.add_assoc]

theorem ripemd320_concat (cmp : List Nat → List Nat → List Nat)
    (c : Ripemd320Core) (b1 b2 : List (List Nat)) :
    Ripemd320Core.updateBlocks cmp (Ripemd320Core.updateBlocks cmp c b1) b2 =
      Ripemd320Core.updateBlocks cmp c (b1 ++ b2) := by
  simp [Ripemd320Core.updateBlocks, Ripemd320Core.mk.injEq,
    List.foldl_append, wrap64_add, Nat.add_assoc]

theorem streebog_concat (TBL : Nat → Nat → Nat) (CST : Nat → List Nat)
    (st : StreebogState) (b1 b2 : List (List Nat)) :
    StreebogState.updateBlocks TBL CST
      (StreebogState.updateBlocks TBL CST st b1) b2 =
      StreebogState.updateBlocks TBL CST st (b1 ++ b2) := by
  simp [StreebogState.updateBlocks, List.foldl_append]

theorem whirlpool_updateLen_comp (l : List Nat) (x1 x2 : Nat) :
    whirlpoolUpdateLen (whirlpoolUpdateLen l x1) x2 =
      whirlpoolUpdateLen l (x1 + x2) := by
  simp only [whirlpoolUpdateLen, List.getD_cons_zero, List.getD_cons_succ,
    List.cons.injEq, and_true, M64]
  omega

theorem whirlpool_concat (cmp : List Nat → List Nat → List Nat)
    (c : WhirlpoolCore) (b1 b2 : List (List Nat))
    (h : b1.length + b2.length < 2 ^ 55) :
    WhirlpoolCore.updateBlocks cmp (WhirlpoolCore.updateBlocks cmp c b1) b2 =
      WhirlpoolCore.updateBlocks cmp c (b1 ++ b2) := by
  simp only [WhirlpoolCore.updateBlocks, WhirlpoolCore.mk.injEq,
    List.foldl_append, List.length_append, and_true]
  rw [whirlpool_updateLen_comp]
  congr 1
  simp only [M64]
  omega

theorem foldl_cmpId (bs : List (List Nat)) (h : List Nat) :
    bs.foldl cmpId h = h := by
  induction bs with
  | nil => rfl
  | cons b t ih => exact ih

theorem leBytes_length (k : Nat) : ∀ x, (leBytes x k).length = k := by
  induction k with
  | zero => intro x; rfl
  | succ n ih => intro x; simp [leBytes, ih]

theorem streebogG_length (TBL : Nat → Nat → Nat) (CST : Nat → List Nat)
    (h n m : List Nat) : (streebogG TBL CST h n m).length = 64 := by
  simp [streebogG]

theorem set_append_cons {α : Type} (l : List α) (a v : α) (t : List α) :
    (l ++ a :: t).set l.length v = l ++ v :: t := by
  induction l with
  | nil => rfl
  | cons x xs ih => simp [ih]

theorem consumeChunks_chunking {σ : Type} (bs : Nat) (upd : σ → List Nat → σ)
    (p : σ × List Nat) (chunks : List (List Nat)) :
    consumeChunks bs upd p chunks = consumeChunks bs upd p [chunks.flatten] := by
  rw [consumeChunks_eq_flatten, consumeChunks_single]

theorem md2_digest_chunking (chunks : List (List Nat)) :
    md2DigestChunks chunks = md2DigestChunks [chunks.flatten] := by
  simp only [md2DigestChunks]
  rw [consumeChunks_chunking]

theorem md4_digest_chunking (chunks : List (List Nat)) :
    md4DigestChunks chunks = md4DigestChunks [chunks.flatten] := by
  simp only [md4DigestChunks]
  rw [consumeChunks_chunking]

theorem md5_digest_chunking (chunks : List (List Nat)) :
    md5DigestChunks chunks = md5DigestChunks [chunks.flatten] := by
  simp only [md5DigestChunks]
  rw [consumeChunks_chunking]

theorem ripemd160_digest_chunking (cmp : List Nat → List Nat → List Nat)
    (chunks : List (List Nat)) :
    ripemd160DigestChunks cmp chunks = ripemd160DigestChunks cmp [chunks.flatten] := by
  simp only [ripemd160DigestChunks]
  rw [consumeChunks_chunking]

theorem ripemd320_digest_chunking (cmp : List Nat → List Nat → List Nat)
    (chunks : List (List Nat)) :
    ripemd320DigestChunks cmp chunks = ripemd320DigestChunks cmp [chunks.flatten] := by
  simp only [ripemd320DigestChunks]
  rw [consumeChunks_chunking]

theorem whirlpool_digest_chunking (cmp : List Nat → List Nat → List Nat)
    (chunks : List (List Nat)) :
    whirlpoolDigestChunks cmp chunks = whirlpoolDigestChunks cmp [chunks.flatten] := by
  simp only [whirlpoolDigestChunks]
  rw [consumeChunks_chunking]

theorem streebog256_digest_chunking (TBL : Nat → Nat → Nat)
    (CST : Nat → List Nat) (chunks : List (List Nat)) :
    streebog256DigestChunks TBL CST chunks =
      streebog256DigestChunks TBL CST [chunks.flatten] := by
  simp only [streebog256DigestChunks]
  rw [consumeChunks_chunking]

theorem streebog512_digest_chunking (TBL : Nat → Nat → Nat)
    (CST : Nat → List Nat) (chunks : List (List Nat)) :
    streebog512DigestChunks TBL CST chunks =
      streebog512DigestChunks TBL CST [chunks.flatten] := by
  simp only [streebog512DigestChunks]
  rw [consumeChunks_chunking]

theorem md4BitLen_val (p c : Nat) : md4BitLen p c = (8 * (p + 64 * c)) % M64 := by
  simp only [md4BitLen, M64]
  omega

theorem md5BitLen_val (c p : Nat) : md5BitLen c p = (8 * (p + 64 * c)) % M64 := by
  simp only [md5BitLen, M64]
  omega

theorem md4BitLenChecked_none_iff (p c : Nat) :
    md4BitLenChecked p c = none ↔ M64 ≤ 8 * (p + 64 * c) := by
  unfold md4BitLenChecked
  split_ifs with h1 h2 h3 <;> simp only [M64] at * <;> simp <;> omega

theorem checkedAdd64_none_iff (a b : Nat) :
    checkedAdd64 a b = none ↔ M64 ≤ a + b := by
  unfold checkedAdd64
  split_ifs with h <;> simp <;> omega

theorem beBytes_length (x k : Nat) : (beBytes x k).length = k := by
  simp [beBytes, leBytes_length]

theorem getLastD_one {α : Type} (a : α) (d : α) : ([a] : List α).getLastD d = a := rfl

theorem getLastD_two {α : Type} (a b : α) (d : α) : ([a, b] : List α).getLastD d = b := rfl

theorem len64_trailing (buf : List Nat) (v : Nat) :
    ((len64PaddingLe buf (leBytes v 8)).getLastD []).drop 56 = leBytes v 8 := by
  unfold len64PaddingLe digestPad
  rw [leBytes_length]
  split_ifs with h
  · rw [getLastD_one]
    rw [show buf ++ 0x80 :: List.replicate (64 - 1 - 8 - buf.length) 0 ++ leBytes v 8
        = (buf ++ 0x80 :: List.replicate (64 - 1 - 8 - buf.length) 0) ++ leBytes v 8 by simp]
    rw [List.drop_left' (by simp [leBytes_length]; omega)]
  · rw [getLastD_two]
    rw [List.drop_left' (by simp)]

theorem streebog_pad_set (buf : List Nat) (h : buf.length < 64) :
    (zeroPad 64 buf).set buf.length 1 = buf ++ 1 :: List.replicate (63 - buf.length) 0 := by
  unfold zeroPad
  rw [show 64 - buf.length = (63 - buf.length) + 1 by omega, List.replicate_succ]
  exact set_append_cons buf 0 1 _

theorem ripemd160FeedN_block_len (n : Nat) :
    (ripemd160FeedN n).block_len = n % M64 := by
  induction n with
  | zero => simp [ripemd160FeedN, ripemd160Init]
  | succ k ih =>
    show (Ripemd160Core.updateBlocks cmpId (ripemd160FeedN k) [zeroBlock64]).block_len = _
    simp only [Ripemd160Core.updateBlocks, List.length_cons, List.length_nil, ih, M64]
    omega

/-! ## Claim theorems -/

/-- C1: for every algorithm, feeding a message in arbitrary chunks
through successive `update` calls produces the same digest as feeding it
in a single call; and at the core level `update_blocks` satisfies the
concatenation law — unconditionally for MD2, MD4, MD5, RIPEMD-160/320
and Streebog, and for Whirlpool under the amendment's bound of fewer
than `2 ^ 55` blocks across the two calls (the `512 × nblocks` bit-count
increment is a wrapping `u64` product). -/
theorem claim_C1_chunk_invariance :
    (∀ chunks, md2DigestChunks chunks = md2DigestChunks [chunks.flatten]) ∧
    (∀ chunks, md4DigestChunks chunks = md4DigestChunks [chunks.flatten]) ∧
    (∀ chunks, md5DigestChunks chunks = md5DigestChunks [chunks.flatten]) ∧
    (∀ cmp chunks,
      ripemd160DigestChunks cmp chunks = ripemd160DigestChunks cmp [chunks.flatten]) ∧
    (∀ cmp chunks,
      ripemd320DigestChunks cmp chunks = ripemd320DigestChunks cmp [chunks.flatten]) ∧
    (∀ TBL CST chunks,
      streebog256DigestChunks TBL CST chunks =
        streebog256DigestChunks TBL CST [chunks.flatten]) ∧
    (∀ TBL CST chunks,
      streebog512DigestChunks TBL CST chunks =
        streebog512DigestChunks TBL CST [chunks.flatten]) ∧
    (∀ cmp chunks,
      whirlpoolDigestChunks cmp chunks = whirlpoolDigestChunks cmp [chunks.flatten]) ∧
    (∀ (c : Md2Core) b1 b2,
      Md2Core.updateBlocks (Md2Core.updateBlocks c b1) b2 =
        Md2Core.updateBlocks c (b1 ++ b2)) ∧
    (∀ (c : Md4Core) b1 b2,
      Md4Core.updateBlocks (Md4Core.updateBlocks c b1) b2 =
        Md4Core.updateBlocks c (b1 ++ b2)) ∧
    (∀ (c : Md5Core) b1 b2,
      Md5Core.updateBlocks (Md5Core.updateBlocks c b1) b2 =
        Md5Core.updateBlocks c (b1 ++ b2)) ∧
    (∀ cmp (c : Ripemd160Core) b1 b2,
      Ripemd160Core.updateBlocks cmp (Ripemd160Core.updateBlocks cmp c b1) b2 =
        Ripemd160Core.updateBlocks cmp c (b1 ++ b2)) ∧
    (∀ cmp (c : Ripemd320Core) b1 b2,
      Ripemd320Core.updateBlocks cmp (Ripemd320Core.updateBlocks cmp c b1) b2 =
        Ripemd320Core.updateBlocks cmp c (b1 ++ b2)) ∧
    (∀ TBL CST (st : StreebogState) b1 b2,
      StreebogState.updateBlocks TBL CST
        (StreebogState.updateBlocks TBL CST st b1) b2 =
        StreebogState.updateBlocks TBL CST st (b1 ++ b2)) ∧
    (∀ cmp (c : WhirlpoolCore) b1 b2, b1.length + b2.length < 2 ^ 55 →
      WhirlpoolCore.updateBlocks cmp (WhirlpoolCore.updateBlocks cmp c b1) b2 =
        WhirlpoolCore.updateBlocks cmp c (b1 ++ b2)) :=
  ⟨md2_digest_chunking, md4_digest_chunking, md5_digest_chunking,
   ripemd160_digest_chunking, ripemd320_digest_chunking,
   streebog256_digest_chunking, streebog512_digest_chunking,
   whirlpool_digest_chunking, md2_concat, md4_concat, md5_concat,
   ripemd160_concat, ripemd320_concat, streebog_concat, whirlpool_concat⟩

/-- Witness for C1 at a concrete input: two single-block Whirlpool
`update_blocks` calls (well below the `2 ^ 55` bound) agree with the
concatenated call. -/
theorem claim_C1_chunk_invariance_witness :
    (([zeroBlock64].length + [zeroBlock64].length < 2 ^ 55) ∧
     WhirlpoolCore.updateBlocks cmpId
        (WhirlpoolCore.updateBlocks cmpId whirlpoolInit [zeroBlock64]) [zeroBlock64] =
       WhirlpoolCore.updateBlocks cmpId whirlpoolInit ([zeroBlock64] ++ [zeroBlock64])) :=
  ⟨by decide,
   claim_C1_chunk_invariance.2.2.2.2.2.2.2.2.2.2.2.2.2.2
     cmpId whirlpoolInit [zeroBlock64] [zeroBlock64] (by decide)⟩

/-- C1 counterexample: from the fresh Whirlpool core, `update_blocks` on
`2 ^ 54` blocks twice is not the same as one call on the `2 ^ 55`-block
concatenation — each of the two calls adds `512 · 2 ^ 54 = 2 ^ 63` to the
bit counter (total `2 ^ 64`, carried into the third limb), while the
single call's `512 · 2 ^ 55` wraps to `0` in `u64`. -/
theorem claim_C1_counterexample :
    WhirlpoolCore.updateBlocks cmpId
        (WhirlpoolCore.updateBlocks cmpId whirlpoolInit
          (List.replicate (2 ^ 54) zeroBlock64))
        (List.replicate (2 ^ 54) zeroBlock64) ≠
      WhirlpoolCore.updateBlocks cmpId whirlpoolInit
        (List.replicate (2 ^ 54) zeroBlock64 ++ List.replicate (2 ^ 54) zeroBlock64) := by
  intro hEq
  have h2 := congrArg WhirlpoolCore.bit_len hEq
  simp only [WhirlpoolCore.updateBlocks, whirlpoolInit, List.length_replicate,
    List.length_append] at h2
  exact absurd h2 (by decide)

set_option maxRecDepth 4000

/-- C2: a zero-length `update` leaves the driver state untouched, and
finalizing a fresh hasher yields the published empty-string digests:
MD4 `31d6cfe0d16ae931b73c59d7e0c089c0`,
MD5 `d41d8cd98f00b204e9800998ecf8427e`,
MD2 `8350e5a3e24c153df2275c9f80692773`. -/
theorem claim_C2_empty_digests :
    (∀ {σ : Type} (bs : Nat) (upd : σ → List Nat → σ) (p : σ × List Nat),
      consume bs upd p [] = p) ∧
    (Md4Core.finalizeFixedCore md4Init []).2 =
      [0x31, 0xd6, 0xcf, 0xe0, 0xd1, 0x6a, 0xe9, 0x31,
       0xb7, 0x3c, 0x59, 0xd7, 0xe0, 0xc0, 0x89, 0xc0] ∧
    (Md5Core.finalizeFixedCore md5Init []).2 =
      [0xd4, 0x1d, 0x8c, 0xd9, 0x8f, 0x00, 0xb2, 0x04,
       0xe9, 0x80, 0x09, 0x98, 0xec, 0xf8, 0x42, 0x7e] ∧
    (Md2Core.finalizeFixedCore md2Init []).2 =
      [0x83, 0x50, 0xe5, 0xa3, 0xe2, 0x4c, 0x15, 0x3d,
       0xf2, 0x27, 0x5c, 0x9f, 0x80, 0x69, 0x27, 0x73] :=
  ⟨fun _ _ _ => rfl, by decide, by decide, by decide⟩

/-- C3: MD2 finalization pads the final block with `n` bytes of value
`n` (`n = 16 - position`; a full padding block when block-aligned),
compresses it (updating the checksum), then performs exactly one extra
compress pass over the running checksum as it stands after that
compress, and the digest is the first 16 bytes of the working array `x`,
not the checksum. -/
theorem claim_C3_md2_finalize :
    (∀ (core : Md2Core) (buf : List Nat),
      Md2Core.finalizeFixedCore core buf = md2FinalizeClaim core buf) ∧
    (∀ (core : Md2Core) (buf : List Nat),
      (Md2Core.finalizeFixedCore core buf).2 =
        ((Md2Core.finalizeFixedCore core buf).1).x.take 16) ∧
    pkcs7Pad 16 ([] : List Nat) = List.replicate 16 16 :=
  ⟨fun core buf => by
    simp only [Md2Core.finalizeFixedCore, md2FinalizeClaim, pkcs7Pad],
   fun _ _ => by simp only [Md2Core.finalizeFixedCore], rfl⟩

/-- C4: Streebog finalization zero-fills the remainder of the final
block, sets the single marker bit immediately after the last real byte,
compresses that block passing the exact count of valid data bytes (the
buffer position) as the explicit length parameter, then performs exactly
two more passes of the keyed permutation with a zero length block: one
over the serialized 256-bit message-length counter and one over the
running byte-wise sum. -/
theorem claim_C4_streebog_finalize (TBL : Nat → Nat → Nat)
    (CST : Nat → List Nat) (st : StreebogState) (buf : List Nat)
    (h : buf.length < 64) :
    StreebogState.finalize TBL CST st buf =
      streebogFinalizeClaim TBL CST st buf := by
  simp only [StreebogState.finalize, streebogFinalizeClaim, streebog_pad_set buf h]

/-- Witness for C4 at a concrete input (one buffered byte, concrete
table and constant instances). -/
theorem claim_C4_streebog_finalize_witness :
    (([0xAB] : List Nat).length < 64) ∧
    StreebogState.finalize tbl0 cst0 streebog512Init [0xAB] =
      streebogFinalizeClaim tbl0 cst0 streebog512Init [0xAB] :=
  ⟨by decide, claim_C4_streebog_finalize tbl0 cst0 streebog512Init [0xAB] (by decide)⟩

/-- C5 (code bug on the MD4 side): the length field of MD4/MD5
finalization equals `8 × (pos + 64 × blocks) mod 2 ^ 64` and lands in
the trailing 8 bytes of the last padded block, little-endian; MD5
computes it with explicitly wrapping operations; but MD4's unchecked
`u64` expression overflows — `none` is the overflow-checked-build panic
— exactly when `8 × (pos + 64 × blocks) ≥ 2 ^ 64`, e.g. already at
`blocks = 2 ^ 58`. -/
theorem claim_C5_length_field :
    (∀ p c, md4BitLen p c = (8 * (p + 64 * c)) % M64) ∧
    (∀ c p, md5BitLen c p = (8 * (p + 64 * c)) % M64) ∧
    (∀ (buf : List Nat) (v : Nat),
      ((len64PaddingLe buf (leBytes v 8)).getLastD []).drop 56 = leBytes v 8) ∧
    (∀ p c, md4BitLenChecked p c = none ↔ M64 ≤ 8 * (p + 64 * c)) ∧
    md4BitLenChecked 0 (2 ^ 58) = none :=
  ⟨md4BitLen_val, md5BitLen_val, len64_trailing, md4BitLenChecked_none_iff,
   by decide⟩

/-- C6 (amended): the 32 bytes Streebog-256 emits are `h[32..64]` — the
upper-indexed half of the 64-byte accumulator (GOST's most-significant
half in the implementation's little-endian byte order), of length 32;
Streebog-512 emits all 64 bytes of `h`. -/
theorem claim_C6_streebog256_output :
    (∀ TBL CST (st : StreebogState) (buf : List Nat),
      (streebog256FinalizeFixedCore TBL CST st buf).2 =
        ((StreebogState.finalize TBL CST st buf).h).drop 32) ∧
    (∀ TBL CST (st : StreebogState) (buf : List Nat),
      ((streebog256FinalizeFixedCore TBL CST st buf).2).length = 32) ∧
    (∀ TBL CST (st : StreebogState) (buf : List Nat),
      (streebog512FinalizeFixedCore TBL CST st buf).2 =
        (StreebogState.finalize TBL CST st buf).h) :=
  ⟨fun _ _ _ _ => by simp only [streebog256FinalizeFixedCore],
   fun TBL CST st buf => by
    simp only [streebog256FinalizeFixedCore, StreebogState.finalize,
      List.length_drop, streebogG_length],
   fun _ _ _ _ => by simp only [streebog512FinalizeFixedCore]⟩

/-- C6 counterexample: at a concrete table instance and input, the
emitted 32 bytes differ from the lower-indexed half `h[0..32]` of the
accumulator, refuting the claim that the low half is emitted. -/
theorem claim_C6_counterexample :
    (streebog256FinalizeFixedCore tbl0 cst0 streebog256Init [0xAB]).2 ≠
      ((StreebogState.finalize tbl0 cst0 streebog256Init [0xAB]).h).take 32 := by
  decide

/-- C7 (supporting theorem for the code bug): the seven cores that do
implement `Reset` — all but RIPEMD-160, which has none — restore the
algorithm's initial value from any state. -/
theorem claim_C7_reset :
    (∀ c : Md2Core, md2Reset c = md2Init) ∧
    (∀ c : Md4Core, md4Reset c = md4Init) ∧
    (∀ c : Md5Core, md5Reset c = md5Init) ∧
    (∀ c : Ripemd320Core, ripemd320Reset c = ripemd320Init) ∧
    (∀ st : StreebogState, streebog256Reset st = streebog256Init) ∧
    (∀ st : StreebogState, streebog512Reset st = streebog512Init) ∧
    (∀ c : WhirlpoolCore, whirlpoolReset c = whirlpoolInit) :=
  ⟨fun _ => rfl, fun _ => rfl, fun _ => rfl, fun _ => rfl, fun _ => rfl,
   fun _ => rfl, fun _ => rfl⟩

/-- C8 (amended): the MD4/MD5 block counters wrap mod `2 ^ 64` by
explicitly wrapping addition and never trap; the RIPEMD-160/320 block
counter (release-wrapping, unchecked) and the MD4 bit-length expression
overflow — the overflow-checked-build panic — exactly when the counter
sum reaches `2 ^ 64`, respectively when `8 × (pos + 64 × blocks)`
does. -/
theorem claim_C8_counter_safety :
    (∀ (c : Md4Core) bs,
      (Md4Core.updateBlocks c bs).blocks = (c.blocks + bs.length) % M64) ∧
    (∀ (c : Md5Core) bs,
      (Md5Core.updateBlocks c bs).block_len = (c.block_len + bs.length) % M64) ∧
    (∀ cmp (c : Ripemd160Core) bs,
      (Ripemd160Core.updateBlocks cmp c bs).block_len =
        (c.block_len + bs.length) % M64) ∧
    (∀ cmp (c : Ripemd320Core) bs,
      (Ripemd320Core.updateBlocks cmp c bs).block_len =
        (c.block_len + bs.length) % M64) ∧
    (∀ a b, checkedAdd64 a b = none ↔ M64 ≤ a + b) ∧
    (∀ p c, md4BitLenChecked p c = none ↔ M64 ≤ 8 * (p + 64 * c)) :=
  ⟨fun c bs => by rw [md4_updateBlocks_eq], fun _ _ => rfl, fun _ _ _ => rfl,
   fun _ _ _ => rfl, checkedAdd64_none_iff, md4BitLenChecked_none_iff⟩

/-- C8 counterexample: the RIPEMD-160 block counter value `2 ^ 64 - 1`
is reachable (by that many single-block `update_blocks` calls), and the
very next counter addition overflows `u64` — a panic in
overflow-checked builds, refuting that the addition can never reach a
panicking overflow. -/
theorem claim_C8_counterexample :
    (ripemd160FeedN (M64 - 1)).block_len = M64 - 1 ∧
    checkedAdd64 (M64 - 1) 1 = none :=
  ⟨by rw [ripemd160FeedN_block_len]; decide, by decide⟩

/-- C10: MD5 and RIPEMD-160/320 finalization runs the padding
compressions on a local copy of the state words, leaving the stored
core — state words and block counter — bit-for-bit unchanged. -/
theorem claim_C10_finalize_frame :
    (∀ (c : Md5Core) buf, (Md5Core.finalizeFixedCore c buf).1 = c) ∧
    (∀ cmp (c : Ripemd160Core) buf,
      (Ripemd160Core.finalizeFixedCore cmp c buf).1 = c) ∧
    (∀ cmp (c : Ripemd320Core) buf,
      (Ripemd320Core.finalizeFixedCore cmp c buf).1 = c) :=
  ⟨fun _ _ => by simp only [Md5Core.finalizeFixedCore],
   fun _ _ _ => by simp only [Ripemd160Core.finalizeFixedCore],
   fun _ _ _ => by simp only [Ripemd320Core.finalizeFixedCore]⟩

theorem whirlpool_updateLen_val (a b c d x : Nat) :
    whirlpoolLenVal (whirlpoolUpdateLen [a, b, c, d] x) =
      (whirlpoolLenVal [a, b, c, d] + x) % (M64 * M64 * M64 * M64) := by
  simp only [whirlpoolUpdateLen, whirlpoolLenVal, List.getD_cons_zero,
    List.getD_cons_succ, M64]
  omega

theorem whirlpool_suffix_length (l : List Nat) (x : Nat) :
    (((whirlpoolUpdateLen l x).map (fun v => beBytes v 8)).flatten).length = 32 := by
  simp [whirlpoolUpdateLen, beBytes, leBytes_length]

theorem whirlpool_finalize_claim_eq (cmp : List Nat → List Nat → List Nat)
    (c : WhirlpoolCore) (buf : List Nat) :
    WhirlpoolCore.finalizeFixedCore cmp c buf = whirlpoolFinalizeClaim cmp c buf := by
  simp only [WhirlpoolCore.finalizeFixedCore, whirlpoolFinalizeClaim, digestPad,
    whirlpool_suffix_length]

/-- C9 (amended): every Whirlpool `update_blocks` call adds
`512 × nblocks`, truncated to `u64` (equal to `512 × nblocks` whenever a
single call passes fewer than `2 ^ 55` blocks), into the four-limb
256-bit counter with carry propagated across all limbs — arithmetic mod
`2 ^ 256` with limb 3 least significant; finalize adds `8 × position`
the same way and the counter is serialized as four big-endian 64-bit
words into a 32-byte suffix appended after the `0x80` marker and zero
fill (reserving an extra block when it does not fit) before the final
compress. -/
theorem claim_C9_whirlpool_length :
    (∀ cmp (c : WhirlpoolCore) bs,
      (WhirlpoolCore.updateBlocks cmp c bs).bit_len =
        whirlpoolUpdateLen c.bit_len ((512 * bs.length) % M64)) ∧
    (∀ a b c d x,
      whirlpoolLenVal (whirlpoolUpdateLen [a, b, c, d] x) =
        (whirlpoolLenVal [a, b, c, d] + x) % (M64 * M64 * M64 * M64)) ∧
    (∀ cmp (c : WhirlpoolCore) buf,
      WhirlpoolCore.finalizeFixedCore cmp c buf = whirlpoolFinalizeClaim cmp c buf) :=
  ⟨fun _ _ _ => rfl, whirlpool_updateLen_val, whirlpool_finalize_claim_eq⟩

/-- C9 counterexample: a single `update_blocks` call passing `2 ^ 55`
blocks adds `512 · 2 ^ 55 mod 2 ^ 64 = 0` to the counter, not the
claimed `512 × nblocks` (which would carry `1` into the third limb). -/
theorem claim_C9_counterexample :
    (WhirlpoolCore.updateBlocks cmpId whirlpoolInit
        (List.replicate (2 ^ 55) zeroBlock64)).bit_len ≠
      whirlpoolUpdateLen whirlpoolInit.bit_len
        (512 * (List.replicate (2 ^ 55) zeroBlock64).length) := by
  simp only [WhirlpoolCore.updateBlocks, whirlpoolInit, List.length_replicate]
  decide
